import Mathlib

/-!
Verification of the kheap_sift scanner (src/main.rs, src/wegg.rs) against its
natural-language specification.  The Rust code is shallowly embedded: byte
strings are modelled as `List Char` (one character per byte, adequate for the
ASCII inputs considered), fallible operations return `Except`, and panics are
modelled as `Except.error`.  External collaborators (the dwat debug-info
reader, the regex crate, the globset crate, tree-sitter) appear only through
the exact values and query the repository hands them, modelled by explicit
function fields or result fields.
-/

namespace KheapSift

/-- Decidable equality for `Except`, needed to derive it for the record types
below and to evaluate concrete instances by `decide`. -/
instance {ε α : Type} [DecidableEq ε] [DecidableEq α] : DecidableEq (Except ε α) := fun x y =>
  match x, y with
  | Except.ok a, Except.ok b =>
      if h : a = b then isTrue (by rw [h])
      else isFalse (by intro hc; cases hc; exact h rfl)
  | Except.error a, Except.error b =>
      if h : a = b then isTrue (by rw [h])
      else isFalse (by intro hc; cases hc; exact h rfl)
  | Except.ok _, Except.error _ => isFalse (by intro hc; cases hc)
  | Except.error _, Except.ok _ => isFalse (by intro hc; cases hc)

/-- Model of a `dwat::Struct` as consumed by main.rs: the only operation the
program performs on it is `struc.byte_size(&dwarf)`, which returns a
`Result<usize, _>`; we record that result directly. -/
structure DwStruct where
  byte_size : Except String Nat
  deriving DecidableEq, Repr

/-- Embedding of the struct-map filter in main.rs lines 93-104: keep a struct
iff its byte size decodes (`if let Ok(bytesz)`) and
`args.lower_bound < bytesz && bytesz <= args.upper_bound`; structs whose size
fails to decode are dropped (`else { false }`).  The HashMap is modelled as an
association list. -/
def filter_struct_map (lower_bound upper_bound : Nat) (m : List (String × DwStruct)) :
    List (String × DwStruct) :=
  m.filter (fun p =>
    match p.2.byte_size with
    | Except.ok bytesz => decide (lower_bound < bytesz) && decide (bytesz ≤ upper_bound)
    | Except.error _ => false)

theorem mem_filter_struct_map {lb ub : Nat} {m : List (String × DwStruct)}
    {p : String × DwStruct} :
    p ∈ filter_struct_map lb ub m ↔
      p ∈ m ∧ ∃ sz, p.2.byte_size = Except.ok sz ∧ lb < sz ∧ sz ≤ ub := by
  unfold filter_struct_map
  rw [List.mem_filter]
  constructor
  · rintro ⟨hm, hcond⟩
    refine ⟨hm, ?_⟩
    revert hcond
    cases hsz : p.2.byte_size with
    | ok sz =>
        intro hcond
        simp only [Bool.and_eq_true, decide_eq_true_eq] at hcond
        exact ⟨sz, rfl, hcond.1, hcond.2⟩
    | error e => intro hcond; exact absurd hcond (by simp)
  · rintro ⟨hm, sz, hsz, hlb, hub⟩
    refine ⟨hm, ?_⟩
    rw [hsz]
    simp [hlb, hub]

/-- C1: a named struct type appears in the catalog iff its byte size decodes
and satisfies the exclusive-lower, inclusive-upper bound
`lower_bound < size <= upper_bound`; at the boundaries, a struct of size
exactly `lower_bound` is excluded and one of size exactly `upper_bound` is
included (concrete boundary instance with bounds 8 and 16). -/
theorem catalog_membership_bounds :
    (∀ (lb ub : Nat) (m : List (String × DwStruct)) (name : String) (s : DwStruct),
      (name, s) ∈ filter_struct_map lb ub m ↔
        (name, s) ∈ m ∧ ∃ sz, s.byte_size = Except.ok sz ∧ lb < sz ∧ sz ≤ ub) ∧
    filter_struct_map 8 16
        [("AtLower", ⟨Except.ok 8⟩), ("AtUpper", ⟨Except.ok 16⟩)] =
      [("AtUpper", ⟨Except.ok 16⟩)] := by
  constructor
  · intro lb ub m name s
    exact mem_filter_struct_map
  · rfl

/-- C10: a struct whose byte size fails to decode (`byte_size` returns `Err`)
is silently excluded from the catalog; the filter itself is total, so the
catalog load never fails on such a struct. -/
theorem undecodable_size_silently_excluded (lb ub : Nat) (m : List (String × DwStruct))
    (name : String) (s : DwStruct) (e : String) (h : s.byte_size = Except.error e) :
    (name, s) ∉ filter_struct_map lb ub m := by
  intro hmem
  obtain ⟨-, sz, hok, -⟩ := mem_filter_struct_map.mp hmem
  rw [h] at hok
  cases hok

/-- Concrete instantiation of `undecodable_size_silently_excluded`: a struct
with an undecodable size is absent from the catalog built over a map that
contains it. -/
theorem undecodable_size_silently_excluded_witness :
    ("X", DwStruct.mk (Except.error "no size")) ∉
      filter_struct_map 0 100 [("X", DwStruct.mk (Except.error "no size"))] :=
  undecodable_size_silently_excluded 0 100 _ "X" _ "no size" rfl

/-- Substring test at the head of a list: `starts_with_chars p l` is true iff
`p` is an initial segment of `l`. -/
def starts_with_chars : List Char → List Char → Bool
  | [], _ => true
  | _ :: _, [] => false
  | p :: ps, c :: cs => p == c && starts_with_chars ps cs

/-- Substring containment: `contains_sub p l` is true iff `p` occurs
contiguously inside `l`.  Used to model `str::contains` and the find operation
of a literal (metacharacter-free) regex. -/
def contains_sub (pat : List Char) : List Char → Bool
  | [] => starts_with_chars pat []
  | c :: cs => starts_with_chars pat (c :: cs) || contains_sub pat cs

/-- Model of a compiled `regex::Regex` as used by main.rs: the program only
calls `.find(text).is_none()`, so a compiled regex is represented by its find
test.  Compilation itself is the regex crate (an external collaborator). -/
structure FlagsRe where
  find : String → Bool

/-- The regex the program compiles from `".*"` (main.rs line 389) when the
user passes no flags regex; `.*` finds an (empty) match in every string. -/
def regex_any : FlagsRe := ⟨fun _ => true⟩

/-- A compiled regex whose pattern is a literal string without
metacharacters, such as the `"GFP_ATOMIC"` of the spec: its find test is
substring containment. -/
def regex_literal (pat : String) : FlagsRe := ⟨fun s => contains_sub pat.data s.data⟩

/-- Association lookup modelling `HashMap::get` on the struct map. -/
def struct_map_get (m : List (String × DwStruct)) (k : String) : Option DwStruct :=
  match m with
  | [] => none
  | (n, s) :: rest => if n = k then some s else struct_map_get rest k

/-- Embedding of the per-match accept/skip decision in main.rs lines 387-402:
the struct name captured by the query is looked up in the catalog
(`if let Some(struct_)`); on a hit, the flags regex (the compiled user regex,
or the regex compiled from `".*"` when none was supplied) is run over the
captured flags text, and the match is skipped (`continue`) iff
`flags_regex.find(&flags).is_none()`. -/
def process_match_reported (struct_map : List (String × DwStruct))
    (flags_regex : Option FlagsRe) (struct_name flags_text : String) : Bool :=
  match struct_map_get struct_map struct_name with
  | some _ => (flags_regex.getD regex_any).find flags_text
  | none => false

/-- Sample one-entry catalog used for concrete boundary instances. -/
def demo_struct_map : List (String × DwStruct) := [("Foo", ⟨Except.ok 64⟩)]

/-- C6: a structural match whose struct type is in the catalog is reported iff
the flags regex finds a match in the captured flags text; with no user regex
the compiled default `".*"` finds a match in every flags text, so every such
match is reported; concretely, under the literal regex `GFP_ATOMIC` a call
whose flags text is `GFP_KERNEL` is excluded and one whose flags text is
`GFP_ATOMIC` is included. -/
theorem flags_filter_semantics :
    (∀ (sm : List (String × DwStruct)) (re : FlagsRe) (sn ft : String),
      process_match_reported sm (some re) sn ft =
        ((struct_map_get sm sn).isSome && re.find ft)) ∧
    (∀ (sm : List (String × DwStruct)) (sn ft : String),
      process_match_reported sm none sn ft = (struct_map_get sm sn).isSome) ∧
    process_match_reported demo_struct_map (some (regex_literal "GFP_ATOMIC"))
      "Foo" "GFP_KERNEL" = false ∧
    process_match_reported demo_struct_map (some (regex_literal "GFP_ATOMIC"))
      "Foo" "GFP_ATOMIC" = true := by
  refine ⟨?_, ?_, by decide, by decide⟩
  · intro sm re sn ft
    unfold process_match_reported
    cases struct_map_get sm sn <;> simp [Option.getD]
  · intro sm sn ft
    unfold process_match_reported
    cases struct_map_get sm sn <;> simp [Option.getD, regex_any]

/-- Model of one glob of a compiled `globset::GlobSet`: the program only
calls `set.is_match(path)`; a single glob is represented by its match test
(glob compilation and semantics live in the globset collaborator). -/
structure GlobM where
  is_match : String → Bool

/-- A `GlobSet` built from several globs matches a path iff some member glob
does. -/
def globset_is_match (globs : List GlobM) (path : String) : Bool :=
  globs.any (fun g => g.is_match path)

/-- Embedding of the exclusion step in main.rs lines 109-126: when at least
one exclude glob is configured, the work list keeps exactly the enumerated
files the glob set does not match (`if !set.is_match(&file)`); with no globs
the enumerated list is used unchanged.  The resulting list is the one the
pipeline loop (lines 143-155) iterates, so a file absent from it is never
read, parsed, or queried. -/
def main_filter_files (exclude_globs : List GlobM) (iter_files : List String) :
    List String :=
  if 0 < exclude_globs.length then
    iter_files.filter (fun f => !globset_is_match exclude_globs f)
  else iter_files

/-- C9: a path matched by at least one configured exclude glob is absent from
the work list handed to the pipeline. -/
theorem excluded_files_never_processed (globs : List GlobM) (files : List String)
    (p : String) (g : GlobM) (hg : g ∈ globs) (hm : g.is_match p = true) :
    p ∉ main_filter_files globs files := by
  intro hmem
  unfold main_filter_files at hmem
  rw [if_pos (List.length_pos.mpr (List.ne_nil_of_mem hg))] at hmem
  have := (List.mem_filter.mp hmem).2
  simp only [globset_is_match, Bool.not_eq_true', List.any_eq_false] at this
  exact absurd hm (by simpa using this g hg)

/-- Sample glob matching exactly the path `skip.c`. -/
def demo_glob : GlobM := ⟨fun s => s == "skip.c"⟩

/-- Concrete instantiation of `excluded_files_never_processed`: with a glob
matching `skip.c` configured, `skip.c` is not in the work list. -/
theorem excluded_files_never_processed_witness :
    "skip.c" ∉ main_filter_files [demo_glob] ["a.c", "skip.c", "b.h"] :=
  excluded_files_never_processed [demo_glob] ["a.c", "skip.c", "b.h"] "skip.c"
    demo_glob (List.mem_singleton.mpr rfl) rfl

/-- One entry yielded by the walkdir traversal: the path (as components
relative to the walk root) and whether it is a regular file. -/
structure FsEntry where
  components : List String
  is_file : Bool
  deriving DecidableEq, Repr

/-- Position of the last dot of a list of characters, returned as the pieces
before and after it; `none` when there is no dot. -/
def split_last_dot : List Char → Option (List Char × List Char)
  | [] => none
  | c :: rest =>
    match split_last_dot rest with
    | some (b, a) => some (c :: b, a)
    | none => if c == '.' then some ([], rest) else none

/-- Rust `Path::extension` on a final path component: the part after the last
dot, provided the part before that dot is non-empty (so `.bashrc` has no
extension), and `none` when there is no dot at all. -/
def path_extension (file_name : String) : Option String :=
  match split_last_dot file_name.data with
  | none => none
  | some (before, after) => if before.isEmpty then none else some (String.mk after)

/-- Embedding of collect_src_files in main.rs lines 69-81: every entry of the
recursive walk is kept iff it is a file and its extension is `c` or `h`
(`path.extension().map_or(false, |ext| ext == "c" || ext == "h")`).  Note the
walk is `walkdir::WalkDir::new(dir).into_iter()` with no `filter_entry`, so
entries inside hidden directories are visited like any others. -/
def collect_src_files (entries : List FsEntry) : List FsEntry :=
  entries.filter (fun e =>
    e.is_file &&
      (match path_extension (e.components.getLastD "") with
       | some ext => ext == "c" || ext == "h"
       | none => false))

/-- An entry lies inside a hidden directory iff some ancestor directory
component starts with a dot. -/
def in_hidden_dir (e : FsEntry) : Bool :=
  (e.components.dropLast).any (fun c =>
    match c.data with
    | [] => false
    | ch :: _ => ch == '.')

/-- Counterexample to C5 as stated: a `.c` file inside the hidden directory
`.git` is returned by collect_src_files, although the claim says every file
in a hidden directory is absent from the returned list. -/
theorem hidden_dir_file_not_excluded :
    in_hidden_dir ⟨[".git", "a.c"], true⟩ = true ∧
    collect_src_files [⟨[".git", "a.c"], true⟩] = [⟨[".git", "a.c"], true⟩] := by
  constructor <;> rfl

/-- C5 as amended: corpus enumeration returns exactly the regular files whose
extension is `c` or `h`; hidden directories are not excluded. -/
theorem collect_src_files_membership :
    ∀ (entries : List FsEntry) (e : FsEntry),
      e ∈ collect_src_files entries ↔
        e ∈ entries ∧ e.is_file = true ∧
          ∃ ext, path_extension (e.components.getLastD "") = some ext ∧
            (ext = "c" ∨ ext = "h") := by
  intro entries e
  unfold collect_src_files
  rw [List.mem_filter]
  constructor
  · rintro ⟨hm, hcond⟩
    rw [Bool.and_eq_true] at hcond
    refine ⟨hm, hcond.1, ?_⟩
    revert hcond
    cases hext : path_extension (e.components.getLastD "") with
    | some ext =>
        rintro ⟨-, hcond⟩
        refine ⟨ext, rfl, ?_⟩
        simpa using hcond
    | none => rintro ⟨-, hcond⟩; exact absurd hcond (by simp)
  · rintro ⟨hm, hfile, ext, hext, hch⟩
    refine ⟨hm, ?_⟩
    rw [Bool.and_eq_true, hext]
    exact ⟨hfile, by rcases hch with h | h <;> simp [h]⟩

/-- A C declaration of the shape the query in main.rs lines 338-371 asks for:
`declaration type: (struct_specifier name: (type_identifier) @struct.name)
declarator: (pointer_declarator declarator: (identifier) @declaration.name)`,
i.e. a local pointer variable declared with a named struct type. -/
structure Declaration where
  struct_name : String
  decl_name : String
  deriving DecidableEq, Repr

/-- An expression statement of the shape the query asks for:
`assignment_expression left: (identifier) @assignment.name right:
(call_expression function: (identifier) @assignment.function arguments:
(argument_list (_) @flags .))`; `args` holds the source text of the
positional arguments of the call in order. -/
structure Assignment where
  assign_name : String
  assign_function : String
  args : List String
  deriving DecidableEq, Repr

/-- A statement of a function body, as far as the query shape distinguishes
them. -/
inductive Stmt
  | decl (d : Declaration)
  | assign (a : Assignment)
  | other
  deriving DecidableEq, Repr

/-- A parsed function_definition: its declarator text and body statements in
source order. -/
structure FunctionDef where
  declarator : String
  body : List Stmt
  deriving DecidableEq, Repr

/-- The predicate `(#match? @assignment.function "k[mz]alloc")` of the query:
tree-sitter regex predicates use find semantics, so the callee name matches
iff it contains `kmalloc` or `kzalloc` as a substring. -/
def alloc_name_matches (name : String) : Bool :=
  contains_sub "kmalloc".data name.data || contains_sub "kzalloc".data name.data

/-- The captures of one query match, in the roles main.rs reads back out of
`match_.captures` (struct name, declared name, assignment target, callee,
flags = last argument); `assign_args` records the argument list of the
captured call expression. -/
structure QueryCaptures where
  function_def : FunctionDef
  struct_name : String
  decl_name : String
  assign_name : String
  assign_function : String
  assign_args : List String
  flags : String
  deriving DecidableEq, Repr

/-- Embedding of the tree-sitter query of main.rs lines 338-371 evaluated on
one function definition: a match pairs a struct-pointer declaration with a
later assignment statement (sibling patterns match in source order) whose
right-hand side calls a function matching `k[mz]alloc` with a non-empty
argument list whose last argument is captured as `@flags` (the trailing
anchor `.`), subject to the join predicate
`(#eq? @declaration.name @assignment.name)`. -/
def query_matches (fd : FunctionDef) : List QueryCaptures :=
  fd.body.enum.flatMap (fun p =>
    match p.2 with
    | Stmt.decl d =>
        fd.body.enum.filterMap (fun q =>
          match q.2 with
          | Stmt.assign a =>
              match a.args.getLast? with
              | some fl =>
                  if decide (p.1 < q.1) && alloc_name_matches a.assign_function
                      && d.decl_name == a.assign_name then
                    some ⟨fd, d.struct_name, d.decl_name, a.assign_name,
                          a.assign_function, a.args, fl⟩
                  else none
              | none => none
          | _ => none)
    | _ => [])

theorem snd_mem_of_mem_enumFrom {α : Type} {l : List α} :
    ∀ {n : Nat} {p : Nat × α}, p ∈ l.enumFrom n → p.2 ∈ l := by
  induction l with
  | nil => intro n p h; cases h
  | cons x xs ih =>
      intro n p h
      rw [List.enumFrom] at h
      rcases List.mem_cons.mp h with h | h
      · rw [h]; exact List.mem_cons_self _ _
      · exact List.mem_cons_of_mem _ (ih h)

theorem snd_mem_of_mem_enum {α : Type} {l : List α} {p : Nat × α}
    (h : p ∈ l.enum) : p.2 ∈ l :=
  snd_mem_of_mem_enumFrom h

/-- Inversion principle for `query_matches`: every produced match comes from a
declaration and an assignment statement of the same function body, has equal
declared and assigned names, a callee matching the allocator pattern, and a
flags capture equal to the last argument of a non-empty argument list. -/
theorem mem_query_matches_inv {fd : FunctionDef} {m : QueryCaptures}
    (h : m ∈ query_matches fd) :
    ∃ d a, Stmt.decl d ∈ fd.body ∧ Stmt.assign a ∈ fd.body ∧
      d.decl_name = a.assign_name ∧ alloc_name_matches a.assign_function = true ∧
      a.args.getLast? = some m.flags ∧
      m = ⟨fd, d.struct_name, d.decl_name, a.assign_name, a.assign_function,
           a.args, m.flags⟩ := by
  unfold query_matches at h
  rw [List.mem_flatMap] at h
  obtain ⟨p, hp, hm⟩ := h
  cases hps : p.2 with
  | decl d =>
      rw [hps] at hm
      rw [List.mem_filterMap] at hm
      obtain ⟨q, hq, hqm⟩ := hm
      cases hqs : q.2 with
      | assign a =>
          rw [hqs] at hqm
          dsimp only at hqm
          cases hlast : a.args.getLast? with
          | some fl =>
              rw [hlast] at hqm
              dsimp only at hqm
              by_cases hcond : (decide (p.1 < q.1)
                  && alloc_name_matches a.assign_function
                  && d.decl_name == a.assign_name) = true
              · rw [if_pos hcond] at hqm
                simp only [Bool.and_eq_true, decide_eq_true_eq, beq_iff_eq] at hcond
                obtain ⟨⟨-, halloc⟩, hnames⟩ := hcond
                injection hqm with hqm
                have hpd : Stmt.decl d ∈ fd.body := by
                  have := snd_mem_of_mem_enum hp; rw [hps] at this; exact this
                have hqa : Stmt.assign a ∈ fd.body := by
                  have := snd_mem_of_mem_enum hq; rw [hqs] at this; exact this
                refine ⟨d, a, hpd, hqa, hnames, halloc, ?_, ?_⟩
                · rw [hlast, ← hqm]
                · rw [← hqm]
              · rw [if_neg hcond] at hqm; cases hqm
          | none => rw [hlast] at hqm; dsimp only at hqm; cases hqm
      | decl d2 => rw [hqs] at hqm; dsimp only at hqm; cases hqm
      | other => rw [hqs] at hqm; dsimp only at hqm; cases hqm
  | assign a => rw [hps] at hm; dsimp only at hm; cases hm
  | other => rw [hps] at hm; dsimp only at hm; cases hm

/-- C7: every match produced by the structural query satisfies the join
condition: the declared pointer name equals the assignment target name
(enforced by the `#eq?` predicate of the query) and the match is produced
within a single enclosing function definition; a function body in which every
declared pointer name differs from every assignment target name yields no
match. -/
theorem query_join_condition :
    (∀ (fd : FunctionDef) (m : QueryCaptures), m ∈ query_matches fd →
        m.decl_name = m.assign_name ∧ m.function_def = fd) ∧
    (∀ fd : FunctionDef,
        (fd.body.all (fun s =>
          match s with
          | Stmt.decl d => fd.body.all (fun t =>
              match t with
              | Stmt.assign a => d.decl_name != a.assign_name
              | _ => true)
          | _ => true)) = true → query_matches fd = []) := by
  constructor
  · intro fd m hm
    obtain ⟨d, a, -, -, hnames, -, -, hmeq⟩ := mem_query_matches_inv hm
    rw [hmeq]
    exact ⟨hnames, rfl⟩
  · intro fd hall
    by_contra hne
    obtain ⟨m, hm⟩ := List.exists_mem_of_ne_nil _ hne
    obtain ⟨d, a, hd, ha, hnames, -, -, -⟩ := mem_query_matches_inv hm
    have h1 := List.all_eq_true.mp hall _ hd
    dsimp only at h1
    have h2 := List.all_eq_true.mp h1 _ ha
    dsimp only at h2
    exact absurd hnames (bne_iff_ne.mp h2)

/-- Function body containing a one-argument allocator call assigned to the
declared struct pointer. -/
def fd_alloc_arity1 : FunctionDef :=
  ⟨"f", [Stmt.decl ⟨"Foo", "p"⟩, Stmt.assign ⟨"p", "kmalloc", ["sz"]⟩]⟩

/-- Function body containing a two-argument allocator call. -/
def fd_alloc_arity2 : FunctionDef :=
  ⟨"f2", [Stmt.decl ⟨"Foo", "p"⟩,
          Stmt.assign ⟨"p", "kmalloc", ["sz", "GFP_KERNEL"]⟩]⟩

/-- Function body containing a three-argument allocator call. -/
def fd_alloc_arity3 : FunctionDef :=
  ⟨"g", [Stmt.decl ⟨"Foo", "p"⟩,
         Stmt.assign ⟨"p", "kzalloc", ["sz", "align", "GFP_ATOMIC"]⟩]⟩

/-- Function body containing a four-argument allocator call. -/
def fd_alloc_arity4 : FunctionDef :=
  ⟨"g2", [Stmt.decl ⟨"Foo", "p"⟩,
          Stmt.assign ⟨"p", "kmalloc", ["a", "b", "c", "GFP_KERNEL"]⟩]⟩

/-- The capture record the query produces on `fd_alloc_arity1`. -/
def qc_arity1 : QueryCaptures :=
  ⟨fd_alloc_arity1, "Foo", "p", "p", "kmalloc", ["sz"], "sz"⟩

/-- Function body whose pointer declaration and allocator assignment use
different variable names, so the join condition fails. -/
def fd_nojoin : FunctionDef :=
  ⟨"h", [Stmt.decl ⟨"Foo", "p"⟩,
         Stmt.assign ⟨"q", "kmalloc", ["8", "GFP_KERNEL"]⟩]⟩

/-- Concrete instantiation of `query_join_condition`: the capture produced on
`fd_alloc_arity1` has equal declared and assigned names, and the
different-name body `fd_nojoin` produces no match. -/
theorem query_join_condition_witness :
    (qc_arity1.decl_name = qc_arity1.assign_name ∧
      qc_arity1.function_def = fd_alloc_arity1) ∧
    query_matches fd_nojoin = [] :=
  ⟨query_join_condition.1 fd_alloc_arity1 qc_arity1 (by decide),
   query_join_condition.2 fd_nojoin (by decide)⟩

/-- Counterexample to C8 as stated: main.rs configures exactly one structural
query, whose argument pattern `(argument_list (_) @flags .)` anchors only the
last argument; that same query matches a one-argument allocator call and a
three-argument allocator call alike, so no configured query shape is tied to
a single arity variant, and a call whose argument count differs from 1 (or
from 3) still matches the query. -/
theorem query_not_arity_specific :
    (∃ m ∈ query_matches fd_alloc_arity1, m.assign_args.length = 1) ∧
    (∃ m ∈ query_matches fd_alloc_arity3, m.assign_args.length = 3) := by
  decide

/-- C8 as amended: the single configured query matches allocator calls of any
positional argument count of at least one, with the flags capture always
being the last argument; in particular calls with 1, 2, 3 and 4 arguments all
match. -/
theorem query_arity_behavior :
    (∀ (fd : FunctionDef) (m : QueryCaptures), m ∈ query_matches fd →
        1 ≤ m.assign_args.length ∧ m.assign_args.getLast? = some m.flags) ∧
    (query_matches fd_alloc_arity1 ≠ [] ∧ query_matches fd_alloc_arity2 ≠ [] ∧
     query_matches fd_alloc_arity3 ≠ [] ∧ query_matches fd_alloc_arity4 ≠ []) := by
  constructor
  · intro fd m hm
    obtain ⟨d, a, -, -, -, -, hlast, hmeq⟩ := mem_query_matches_inv hm
    rw [hmeq]
    refine ⟨?_, hlast⟩
    cases hargs : a.args with
    | nil => rw [hargs] at hlast; cases hlast
    | cons x xs => simp
  · exact ⟨by decide, by decide, by decide, by decide⟩

/-- Concrete instantiation of `query_arity_behavior`: the capture produced on
`fd_alloc_arity1` has a non-empty argument list whose last argument is the
flags capture. -/
theorem query_arity_behavior_witness :
    1 ≤ qc_arity1.assign_args.length ∧
      qc_arity1.assign_args.getLast? = some qc_arity1.flags :=
  query_arity_behavior.1 fd_alloc_arity1 qc_arity1 (by decide)

/-- The opening brace character, written via its code point. -/
def braceOpen : Char := Char.ofNat 123

/-- Loop body of byte_offset_to_line_number (main.rs lines 165-179): walk the
content; as soon as the current byte index reaches the requested offset,
return the 1-based line number accumulated so far; fall off the end (`none`)
otherwise.  The index test happens before the newline test, exactly as in the
source. -/
def byte_line_go : List Char → Nat → Nat → Nat → Option Nat
  | [], _, _, _ => none
  | c :: rest, byte_offset, line_number, current_byte_index =>
    if byte_offset ≤ current_byte_index then some line_number
    else byte_line_go rest byte_offset
      (if c == '\n' then line_number + 1 else line_number) (current_byte_index + 1)

/-- Embedding of byte_offset_to_line_number from main.rs. -/
def byte_offset_to_line_number (content : List Char) (byte_offset : Nat) : Option Nat :=
  byte_line_go content byte_offset 1 0

/-- Rust `str::find(char)`: byte index of the first occurrence. -/
def find_char (c : Char) : List Char → Option Nat
  | [] => none
  | x :: xs => if x == c then some 0 else (find_char c xs).map (· + 1)

/-- Byte-range slice `content[a..b]`. -/
def slice_range (content : List Char) (a b : Nat) : List Char :=
  (content.take b).drop a

/-- Split at newline characters; always yields one piece more than the number
of newlines. -/
def split_nl : List Char → List (List Char)
  | [] => [[]]
  | c :: cs =>
    if c == '\n' then [] :: split_nl cs
    else
      match split_nl cs with
      | [] => [[c]]
      | l :: ls => (c :: l) :: ls

/-- Remove one trailing carriage return, for pieces terminated by a line
feed. -/
def strip_cr (l : List Char) : List Char :=
  match l.getLast? with
  | some c => if c == '\r' then l.dropLast else l
  | none => l

/-- Rust `str::lines`: split at `\n`, treat `\r\n` as one terminator, and do
not yield a final empty line for a trailing terminator.  Pieces terminated by
a line feed lose a trailing carriage return; a final unterminated piece keeps
its characters. -/
def rust_lines (s : List Char) : List (List Char) :=
  if s.isEmpty then []
  else if s.getLast? == some '\n' then ((split_nl s).dropLast).map strip_cr
  else ((split_nl s).dropLast).map strip_cr ++ [(split_nl s).getLastD []]

/-- The value of Rust `usize::MAX` on a 64-bit target. -/
def USIZE_MAX : Nat := 2 ^ 64 - 1

/-- The byte ranges of one structural-query match as read back by main.rs
(struct QueryMatch, lines 309-318): function definition, struct type name,
declared pointer name, assignment target name, call expression, callee name,
flags argument. -/
structure Qm where
  function_definition : Nat × Nat
  struct_name : Nat × Nat
  decl_name : Nat × Nat
  assign_name : Nat × Nat
  assign_call : Nat × Nat
  assign_func : Nat × Nat
  flags : Nat × Nat
  deriving DecidableEq, Repr

/-- The span-line loop of display_match (main.rs lines 246-256): walk the
function source lines keeping a running byte offset `seen`; a line index is
appended (once) when some capture start, relative to the function start,
falls within `[seen, seen + line_len + 1)`. -/
def included_lines_go (match_starts : List Nat) :
    List (List Char) → Nat → Nat → List Nat → List Nat
  | [], _, _, acc => acc
  | line :: rest, idx, seen, acc =>
    let acc :=
      if (match_starts.any (fun st => decide (seen ≤ st) &&
            decide (st < seen + line.length + 1))) && !(acc.contains idx)
      then acc ++ [idx] else acc
    included_lines_go match_starts rest (idx + 1) (seen + line.length + 1) acc

/-- The emission loop of display_match (main.rs lines 296-303): print a `...`
marker line when the guard `line_idx == usize::MAX-1 || last_line + 1 !=
line_idx` holds, then the line itself; indexing past the end of the line list
is the corresponding panic. -/
def emit_go (src_lines : List (List Char)) :
    List Nat → Nat → Except String (List (List Char))
  | [], _ => Except.ok []
  | line_idx :: rest, last_line => do
    let current ← match src_lines.get? line_idx with
      | some l => Except.ok l
      | none => Except.error "index out of bounds"
    let tail ← emit_go src_lines rest line_idx
    if line_idx == USIZE_MAX - 1 || last_line + 1 != line_idx then
      Except.ok ("...".data :: current :: tail)
    else
      Except.ok (current :: tail)

/-- Embedding of the excerpt selection and emission of display_match
(main.rs lines 216-303): the returned value is the list of excerpt lines the
function prints for one match (`...` markers included), or the message of the
panic it aborts with.  Stdout is modelled as a non-terminal, so the
highlighting branch is not taken and the lines are unmodified source lines.
Note two faithful oddities of the source: the prefix is
`(0..end_decl_line)`, and `end_decl_line` is computed by counting newlines in
`content[decl_line_start..]` — the slice starts at the byte index equal to
the 1-based line number of the function. -/
def display_match_excerpt (content : List Char) (qm : Qm) :
    Except String (List (List Char)) := do
  let base := qm.function_definition
  let decl_line_start ← match byte_offset_to_line_number content base.1 with
    | some n => Except.ok n
    | none => Except.error "called Option::unwrap() on a None value"
  let match_ranges := [qm.struct_name, qm.decl_name, qm.assign_name,
                       qm.assign_func, qm.flags]
  let function_src := slice_range content base.1 base.2
  let brace_location ← match find_char braceOpen function_src with
    | some n => Except.ok n
    | none => Except.error "no opening brace in function source?"
  let end_decl_line ←
    match byte_offset_to_line_number (content.drop decl_line_start) brace_location with
    | some n => Except.ok (n - 1)
    | none => Except.error "failed when looking for line number of opening brace"
  let src_lines := rust_lines function_src
  let match_starts := match_ranges.map (fun r => r.1 - base.1)
  let included0 := List.range end_decl_line
  let included := included_lines_go match_starts src_lines 0 0 included0
  let src_lines_ct := src_lines.length - 1
  let included ←
    if !(included.contains (src_lines_ct - 1)) then
      match src_lines.get? (src_lines_ct - 1) with
      | some l =>
          if contains_sub "return ".data l && (l.getLast? == some ';') then
            Except.ok (included ++ [src_lines_ct - 1])
          else Except.ok included
      | none => Except.error "index out of bounds"
    else Except.ok included
  let included := if !(included.contains src_lines_ct) then included ++ [src_lines_ct]
    else included
  emit_go src_lines included (USIZE_MAX - 1)

/-- Failing input for the excerpt claim: twenty blank lines followed by a
short function with one allocator call; the function definition starts at
byte 20, line 21. -/
def c3_content : String :=
  "\n\n\n\n\n\n\n\n\n\n\n\n\n\n\n\n\n\n\n\nvoid f(void)\n\x7b\n\tstruct Foo *p;\n\tp = kmalloc(8, GFP_KERNEL);\n\tq();\n\x7d\n"

/-- The capture ranges of the single structural match in `c3_content`. -/
def c3_qm : Qm :=
  ⟨(20, 87), (43, 46), (48, 49), (52, 53), (56, 78), (56, 63), (67, 77)⟩

/-- The excerpt the code actually prints for `c3_content`. -/
def c3_actual_excerpt : List String :=
  ["...", "void f(void)", "...", "\tstruct Foo *p;",
   "\tp = kmalloc(8, GFP_KERNEL);", "...", "\x7d"]

/-- C3, evaluated at the failing input: the printed excerpt omits the line
holding the opening brace (the kept prefix stops one line short of it) and
starts with a `...` marker that precedes the first kept line rather than
separating two runs, while the claim requires every line from the signature
through the brace line and markers only between non-contiguous runs. -/
theorem excerpt_contradicts_claim_at_input :
    display_match_excerpt c3_content.data c3_qm =
      Except.ok (c3_actual_excerpt.map String.data) ∧
    "\x7b".data ∉ c3_actual_excerpt.map String.data ∧
    (c3_actual_excerpt.map String.data).head? = some "...".data := by
  refine ⟨by decide, by decide, by decide⟩

/-- The parsed command line of main.rs (struct CmdArgs, lines 22-62). -/
structure CmdArgs where
  vmlinux_path : String
  source_path : String
  lower_bound : Nat
  upper_bound : Nat
  quiet : Bool
  flags : Option String
  exclude : List String
  threads : Option Nat

/-- Embedding of the full block display_match prints for one accepted match
(main.rs lines 263-304) with stdout modelled as a non-terminal: the header
line naming the struct, a blank line, the verbose struct layout, a blank
line, `path:line`, the excerpt lines, and a final blank line. -/
def display_match_output (content : List Char) (path struct_str : String) (qm : Qm) :
    Except String (List String) := do
  let struct_name := String.mk (slice_range content qm.struct_name.1 qm.struct_name.2)
  let decl_line_start ← match byte_offset_to_line_number content qm.function_definition.1 with
    | some n => Except.ok n
    | none => Except.error "called Option::unwrap() on a None value"
  let excerpt ← display_match_excerpt content qm
  Except.ok (["======== Found allocation site for: struct " ++ struct_name ++ " ========",
              "", struct_str, "",
              path ++ ":" ++ toString decl_line_start] ++
             excerpt.map String.mk ++ [""])

/-- The output of the program for one accepted match as a function of the
parsed CLI arguments: main.rs parses `--quiet` into CmdArgs (line 47) but
never consults it again — the spawn at lines 143-155 forwards only the file,
the struct map, the dwarf handle and the flags regex, and neither
process_file_content nor display_match takes a quiet parameter — so the full
display_match block is printed for every value of `args.quiet`. -/
def match_output_for_args (_args : CmdArgs) (content : List Char)
    (path struct_str : String) (qm : Qm) : Except String (List String) :=
  display_match_output content path struct_str qm

/-- A command line with the quiet option set. -/
def c4_args : CmdArgs :=
  ⟨"vmlinux", "linux/", 8, 4096, true, none, [], none⟩

/-- A verbose struct layout string as produced by the debug-info reader. -/
def c4_struct_str : String := "struct Foo \x7b\n    int a;\n\x7d"

/-- The full report block the program prints for the match in `c3_content`. -/
def c4_full_block : List String :=
  ["======== Found allocation site for: struct Foo ========", "",
   c4_struct_str, "", "fs/foo.c:21"] ++ c3_actual_excerpt ++ [""]

/-- C4, evaluated at a failing input: with the quiet option set the output
for an accepted match is still the full report block — header, verbose
layout, `path:line` and excerpt — and not the bare struct name. -/
theorem quiet_flag_ignored :
    c4_args.quiet = true ∧
    match_output_for_args c4_args c3_content.data "fs/foo.c" c4_struct_str c3_qm =
      Except.ok c4_full_block ∧
    c4_full_block ≠ ["Foo"] := by
  refine ⟨rfl, by decide, by decide⟩

/-- Result of one spawned per-file task. -/
inductive TaskResult
  | panicked (msg : String)
  | completed
  deriving DecidableEq, Repr

/-- Outcome of read_and_process_file (main.rs lines 421-439): `ret` is the
Result the function returns, `panic` a panic escaping it. -/
inductive RapfOutcome
  | panic (msg : String)
  | ret (r : Except String Unit)
  deriving DecidableEq, Repr

/-- Embedding of read_and_process_file (main.rs lines 421-439): reading the
file is modelled by `fs` (`none` meaning File::open or read_to_end fails,
which the two `?` operators propagate as an Err return); the awaited
process_file_content is modelled by `proc`, whose panics (outer
`Except.error`) escape, while its returned Result (inner value) is discarded
by the `let _ =` binding, after which the function returns `Ok(())`. -/
def read_and_process_file (fs : String → Option (List Char))
    (proc : List Char → Except String (Except String Unit)) (path : String) :
    RapfOutcome :=
  match fs path with
  | none => RapfOutcome.ret (Except.error "failed to read file")
  | some contents =>
      match proc contents with
      | Except.error panic_msg => RapfOutcome.panic panic_msg
      | Except.ok _discarded => RapfOutcome.ret (Except.ok ())

/-- The closure spawned per file (main.rs lines 148-153):
`read_and_process_file(...).await.unwrap()` — an Err return becomes a panic
through unwrap, and a panic from inside propagates as the task panic. -/
def spawned_task (fs : String → Option (List Char))
    (proc : List Char → Except String (Except String Unit)) (path : String) :
    TaskResult :=
  match read_and_process_file fs proc path with
  | RapfOutcome.panic m => TaskResult.panicked m
  | RapfOutcome.ret (Except.error _) =>
      TaskResult.panicked "called Result::unwrap() on an Err value"
  | RapfOutcome.ret (Except.ok _) => TaskResult.completed

/-- The join loop of main (main.rs lines 157-160): `handle.await.unwrap()`
re-panics in main on the first panicked task, aborting the run with a
non-zero exit; only if every task completed does main reach `Ok(())`. -/
def main_join (fs : String → Option (List Char))
    (proc : List Char → Except String (Except String Unit)) :
    List String → Except String Unit
  | [] => Except.ok ()
  | f :: rest =>
      match spawned_task fs proc f with
      | TaskResult.panicked m => Except.error m
      | TaskResult.completed => main_join fs proc rest

/-- A corpus in which `bad.c` cannot be read and every other file reads
fine. -/
def c2_fs : String → Option (List Char) := fun p =>
  if p == "bad.c" then none else some "int x;".data

/-- Benign processing: every file parses and produces no match. -/
def c2_proc : List Char → Except String (Except String Unit) := fun _ =>
  Except.ok (Except.ok ())

/-- A file whose matched function source contains no opening brace. -/
def c2_nobrace_content : String := "void f(void);"

/-- Capture ranges handed to display_match for the brace-free function. -/
def c2_nobrace_qm : Qm := ⟨(0, 13), (0, 1), (0, 1), (0, 1), (0, 1), (0, 1), (0, 1)⟩

/-- Processing that reaches display_match for one accepted match on the
brace-free function, as process_file_content does for a catalog hit; the
panic of the brace `expect` escapes. -/
def c2_proc_display : List Char → Except String (Except String Unit) := fun contents =>
  match display_match_excerpt contents c2_nobrace_qm with
  | Except.error m => Except.error m
  | Except.ok _ => Except.ok (Except.ok ())

/-- C2, evaluated at failing inputs: an unreadable file is not skipped — the
spawned task panics on `.unwrap()` of the read error and main re-panics at
the join, so the whole run aborts with a non-zero exit instead of continuing
with exit 0; likewise one match whose function source lacks an opening brace
aborts the whole run through the `expect` in display_match. -/
theorem per_file_failure_aborts_run :
    main_join c2_fs c2_proc ["a.c", "bad.c", "c.c"] =
      Except.error "called Result::unwrap() on an Err value" ∧
    main_join (fun _ => some c2_nobrace_content.data) c2_proc_display ["f.c"] =
      Except.error "no opening brace in function source?" := by
  exact ⟨rfl, rfl⟩

end KheapSift
